import Mathlib

/-!
Verification of the ch341a-relay-board control program (`src/main.c`).

The program drives an 8-channel CH341A USB relay board.  We give a shallow
embedding of the relevant C functions:

* `send_relay_cmd` builds an 11-byte command frame (`cmd_part1`, the
  sub-command byte, `cmd_part2`) in a zero-initialized 32-byte buffer and
  transmits its first 11 bytes over a USB bulk endpoint; it reports failure
  when the transferred byte count differs from 11.  We model the buffer
  construction (`sendBuf`, `frame`) and abstract the bulk transfer by an
  oracle `tok : Nat → Bool` saying whether the k-th write of a call
  transfers all 11 bytes.
* `USB_write_IO` (modelled as `USB_write_io`) sends the 27-sub-command
  program for the low 8 bits of `active_relays` and, via `goto error`,
  stops at the first failed write, closes and nulls the device handle and
  sets `output_pending`.
* `run_once` handles one-shot mode, `run_as_daemon`'s initial scan is
  `initialScan`, and one iteration of its inotify event loop is
  `daemonStep` (events folded by `foldEvent` using the
  `sscanf(name, "D_OUT_%d", &pin)` model `scanDOut`).

Machine integers are modelled as `Nat`/`Int` with explicit masking where
the C code truncates (`(uint8_t)` casts become `% 256`).  C undefined
behavior (shift counts outside `0..30` for the `int` literal `1`) is made
explicit as an `Option`/dedicated constructor rather than given a value.
-/

namespace RelayBoard

/-- The 5-byte fixed frame head `cmd_part1` from `src/main.c`. -/
def cmd_part1 : List Nat := [0xa1, 0x6a, 0x1f, 0x00, 0x10]

/-- The 5-byte fixed frame tail `cmd_part2` from `src/main.c`. -/
def cmd_part2 : List Nat := [0x3f, 0x00, 0x00, 0x00, 0x00]

/-- `FIRST_PIN` from `src/main.c`. -/
def FIRST_PIN : Int := 1

/-- `LAST_PIN` from `src/main.c`. -/
def LAST_PIN : Int := 8

/-- Model of the mutable `ios_handle_t` fields the core logic reads and
writes: the 32-bit masks `active_relays` and `outputbits`, the libusb
device handle (only its presence matters) and the `output_pending` flag. -/
structure IosHandle where
  active_relays : Nat
  outputbits : Nat
  device_handle : Option Unit
  output_pending : Bool
  deriving DecidableEq

/-- `memcpy`/store into a byte-indexed buffer: writes `src` at offset
`off`, leaving all other positions of `b` unchanged. -/
def writeBytes (b : Nat → Nat) (off : Nat) (src : List Nat) : Nat → Nat :=
  fun i => if off ≤ i ∧ i < off + src.length then src.getD (i - off) 0 else b i

/-- The buffer built by `send_relay_cmd`: `uint8_t buf[32] = {0}`, then
`memcpy(buf, cmd_part1, 5)`, `buf[5] = cmd`, `memcpy(buf + 6, cmd_part2, 5)`. -/
def sendBuf (cmd : Nat) : Nat → Nat :=
  writeBytes (writeBytes (writeBytes (fun _ => 0) 0 cmd_part1) 5 [cmd]) 6 cmd_part2

/-- The 11 bytes (`numbytes = 5 + 5 + 1`) that `send_relay_cmd` hands to
`libusb_bulk_transfer` for sub-command `cmd`. -/
def frame (cmd : Nat) : List Nat := (List.range 11).map (sendBuf cmd)

/-- One iteration of the `USB_write_IO` loop body for bit mask `m`
(`m` ranges over `128, 64, …, 1`): the three sub-commands sent for a set
bit (`0x20, 0x28, 0x20`) or a clear bit (`0x00, 0x08, 0x00`). -/
def relaySteps (a m : Nat) : List Nat :=
  if a &&& m ≠ 0 then [0x20, 0x28, 0x20] else [0x00, 0x08, 0x00]

/-- The full ordered sub-command program one `USB_write_IO` call attempts
to send for the 8-bit value `a`: the frame-start `0x00`, the unrolled
`for (mask = 128; mask > 0; mask >>= 1)` loop, and the frame-end
`0x00, 0x01`. -/
def subCommands (a : Nat) : List Nat :=
  0x00 :: (relaySteps a 128 ++ (relaySteps a 64 ++ (relaySteps a 32 ++ (relaySteps a 16 ++
    (relaySteps a 8 ++ (relaySteps a 4 ++ (relaySteps a 2 ++ (relaySteps a 1 ++
      [0x00, 0x01]))))))))

/-- Sequential transmission with fail-fast: `tok k` tells whether the
`k`-th bulk write of this `USB_write_IO` call transfers all 11 bytes.
Returns whether every write succeeded together with the frames actually
handed to the transport (the failing write is attempted, later
sub-commands are not — this is the `goto error` path). -/
def sendFrames (tok : Nat → Bool) : Nat → List Nat → Bool × List (List Nat)
  | _, [] => (true, [])
  | k, c :: cs =>
    if tok k then
      let r := sendFrames tok (k + 1) cs
      (r.1, frame c :: r.2)
    else (false, [frame c])

/-- Outcome of a `USB_write_IO` call: normal return 0 / return -1 with the
updated handle and the frames written, or the `assert(dev)` abort when the
device handle is NULL. -/
inductive WriteOutcome where
  | ok (h : IosHandle) (frames : List (List Nat))
  | err (h : IosHandle) (frames : List (List Nat))
  | assertFail
  deriving DecidableEq

/-- Model of `USB_write_IO` from `src/main.c`: asserts the device handle,
truncates `active_relays` to `uint8_t`, sends the 27-sub-command program,
and on the first failed write closes and nulls the handle and sets
`output_pending` (the `goto error` block); on success clears
`output_pending` and records the sent mask in `outputbits`. -/
def USB_write_io (h : IosHandle) (tok : Nat → Bool) : WriteOutcome :=
  match h.device_handle with
  | none => .assertFail
  | some _ =>
    let active := h.active_relays % 256
    let r := sendFrames tok 0 (subCommands active)
    if r.1 then .ok { h with output_pending := false, outputbits := active } r.2
    else .err { h with device_handle := none, output_pending := true } r.2

/-- The frames a `USB_write_IO` call hands to the transport. -/
def framesOf : WriteOutcome → List (List Nat)
  | .ok _ fs => fs
  | .err _ fs => fs
  | .assertFail => []

/-- The initial-scan mask of `run_as_daemon`: the C loop
`for (i = FIRST_PIN; i != LAST_PIN; i++)` runs for `i = 1, …, 7` only
(`FIRST_PIN = 1`, `LAST_PIN = 8`), OR-ing `1 << (i - 1)` into the mask for
each marker file `D_OUT_<i>` that `stat` finds. -/
def initialScan (ex : Nat → Bool) : Nat :=
  (List.range' 1 7).foldl (fun acc i => if ex i then acc ||| 2 ^ (i - 1) else acc) 0

/-- ASCII decimal digit test, as `%d` conversion uses it. -/
def isDigit (c : Char) : Bool := decide (48 ≤ c.toNat ∧ c.toNat ≤ 57)

/-- The C locale white-space set that scanf's `%d` skips:
space, \t, \n, \v, \f, \r. -/
def isSpace (c : Char) : Bool :=
  decide (c.toNat = 32 ∨ c.toNat = 9 ∨ c.toNat = 10 ∨ c.toNat = 11 ∨
    c.toNat = 12 ∨ c.toNat = 13)

/-- The literal part of the format string `"D_OUT_%d"`. -/
def dOutLit : List Char := ['D', '_', 'O', 'U', 'T', '_']

/-- Result of matching the literal format characters against the input:
all matched with some input remaining, input exhausted mid-literal (an
input failure, so `sscanf` returns `EOF`), or a mismatching character (a
matching failure, so `sscanf` returns 0). -/
inductive LitResult where
  | rest (s : List Char)
  | inputFail
  | matchFail
  deriving DecidableEq

/-- Match the literal characters of the format against the input. -/
def matchLit : List Char → List Char → LitResult
  | [], s => .rest s
  | _ :: _, [] => .inputFail
  | c :: cs, x :: xs => if x = c then matchLit cs xs else .matchFail

/-- Skip the white space that a `%d` conversion consumes first. -/
def dropSpaces : List Char → List Char
  | [] => []
  | c :: cs => if isSpace c then dropSpaces cs else c :: cs

/-- Value of the maximal leading run of decimal digits, accumulator style
(trailing non-digit characters are left unconsumed, as scanf does). -/
def digitsVal (acc : Nat) : List Char → Nat
  | [] => acc
  | c :: cs => if isDigit c then digitsVal (10 * acc + (c.toNat - 48)) cs else acc

/-- Model of the C construct `int pin = 0; if (sscanf(name, "D_OUT_%d", &pin))`:
`some p` means the branch is entered with `pin = p`, `none` means it is
skipped.  `sscanf` returns 1 (branch entered, `pin` assigned) when the
literal matches and, after optional white space and an optional sign, at
least one digit follows; it returns 0 (branch skipped) on a mismatch with
input remaining; it returns `EOF = -1` — which C treats as true, with
`pin` keeping its initializer 0 — when the input runs out before the
conversion completes. -/
def scanDOut (name : List Char) : Option Int :=
  match matchLit dOutLit name with
  | .matchFail => none
  | .inputFail => some 0
  | .rest s =>
    match dropSpaces s with
    | [] => some 0
    | c :: rest =>
      if c = '-' then
        match rest with
        | [] => some 0
        | d :: _ => if isDigit d then some (-(Int.ofNat (digitsVal 0 rest))) else none
      else if c = '+' then
        match rest with
        | [] => some 0
        | d :: _ => if isDigit d then some (Int.ofNat (digitsVal 0 rest)) else none
      else if isDigit c then some (Int.ofNat (digitsVal 0 (c :: rest)))
      else none

/-- Kind of an inotify event as the daemon distinguishes them:
`IN_CREATE`, `IN_DELETE`, or anything else (ignored). -/
inductive EKind where
  | create
  | delete
  | other
  deriving DecidableEq

/-- An inotify event: its kind, the `IN_ISDIR` flag and the file name. -/
structure WEvent where
  kind : EKind
  isDir : Bool
  name : List Char
  deriving DecidableEq

/-- Folding one event into the 32-bit `active_relays` accumulator, as the
daemon loop body does.  A create event with a parsed `pin` executes
`active_relays |= 1 << (pin - 1)` and a delete event executes
`active_relays &= ~(1 << (pin - 1))`; the C `int` shift `1 << (pin - 1)`
is defined only for `pin` in `1..31` (a negative count or `1 << 31` is
undefined behavior, modelled as `none`).  The code performs no range
check whatsoever on `pin`. -/
def foldEvent (acc : Nat) (e : WEvent) : Option Nat :=
  if e.name = [] then some acc
  else
    match e.kind with
    | .other => some acc
    | .create =>
      if e.isDir then some acc
      else
        match scanDOut e.name with
        | none => some acc
        | some pin =>
          if 1 ≤ pin ∧ pin ≤ 31 then some (acc ||| 2 ^ (pin.toNat - 1)) else none
    | .delete =>
      if e.isDir then some acc
      else
        match scanDOut e.name with
        | none => some acc
        | some pin =>
          if 1 ≤ pin ∧ pin ≤ 31 then some (acc &&& (2 ^ 32 - 1 - 2 ^ (pin.toNat - 1)))
          else none

/-- Folding a whole batch of events, in delivery order. -/
def foldBatch (acc : Nat) : List WEvent → Option Nat
  | [] => some acc
  | e :: es =>
    match foldEvent acc e with
    | some a => foldBatch a es
    | none => none

/-- Result of one iteration of the daemon's `while (1)` event loop. -/
inductive StepResult where
  | next (h : IosHandle) (frames : List (List Nat))
  | assertCrash
  | undefBehavior
  deriving DecidableEq

/-- One iteration of the daemon event loop in `run_as_daemon`: fold the
batch of events into `active_relays`, then call `USB_write_IO` (its return
value is ignored — the loop continues after a failed write).  If
`USB_write_IO` is entered with a NULL device handle its `assert(dev)`
aborts the process (`assertCrash`); no reconnect is ever attempted inside
the loop. -/
def daemonStep (h : IosHandle) (batch : List WEvent) (tok : Nat → Bool) : StepResult :=
  match foldBatch h.active_relays batch with
  | none => .undefBehavior
  | some acc =>
    match USB_write_io { h with active_relays := acc } tok with
    | .ok h2 fs => .next h2 fs
    | .err h2 fs => .next h2 fs
    | .assertFail => .assertCrash

/-- Model of `atoi`: skip white space, optional sign, value of leading
digits (0 when there are none). -/
def atoi (s : List Char) : Int :=
  match dropSpaces s with
  | [] => 0
  | c :: rest =>
    if c = '-' then -(Int.ofNat (digitsVal 0 rest))
    else if c = '+' then Int.ofNat (digitsVal 0 rest)
    else Int.ofNat (digitsVal 0 (c :: rest))

/-- Result of one-shot mode: the shell exit code returned by `run_once`,
the final handle state, whether `USB_open_device` was attempted, how many
times `USB_write_IO` was called, and the frames written. -/
structure OnceResult where
  rc : Int
  h : IosHandle
  opened : Bool
  applyCalls : Nat
  frames : List (List Nat)
  deriving DecidableEq

/-- Model of `run_once` from `src/main.c`: each argument is `atoi`-parsed;
the first one outside `FIRST_PIN..LAST_PIN` makes the call return 2
before any device interaction; otherwise `1 << (relay - 1)` is OR-ed into
`active_relays`.  After the argument loop the device is opened (success
modelled by `openOk`; on success `USB_open_device` stores the handle and
sets `output_pending`); on open failure the call returns 3; on success
`USB_write_IO` is called exactly once and the call returns 0 — its write
result is ignored by the C code. -/
def run_once (h : IosHandle) (args : List (List Char)) (openOk : Bool)
    (tok : Nat → Bool) : OnceResult :=
  match args with
  | a :: rest =>
    let relay := atoi a
    if relay < FIRST_PIN ∨ relay > LAST_PIN then ⟨2, h, false, 0, []⟩
    else
      run_once { h with active_relays := h.active_relays ||| 2 ^ (relay.toNat - 1) }
        rest openOk tok
  | [] =>
    if openOk then
      let h1 : IosHandle := { h with device_handle := some (), output_pending := true }
      match USB_write_io h1 tok with
      | .ok h2 fs => ⟨0, h2, true, 1, fs⟩
      | .err h2 fs => ⟨0, h2, true, 1, fs⟩
      | .assertFail => ⟨0, h1, true, 1, []⟩
    else ⟨3, h, false, 0, []⟩

/-!  ## Theorems  -/

/-- Claim C2: `send_relay_cmd`'s encoding of a sub-command byte `x` is
exactly the 11-byte buffer `A1 6A 1F 00 10 x 3F 00 00 00 00`; it is a
total function of `x` with no failure mode. -/
theorem c2_frame_layout (x : Nat) (_hx : x < 256) :
    frame x = [0xa1, 0x6a, 0x1f, 0x00, 0x10, x, 0x3f, 0x00, 0x00, 0x00, 0x00] ∧
    (frame x).length = 11 := by
  refine ⟨rfl, rfl⟩

/-- Witness for `c2_frame_layout` at the concrete sub-command `0x28`. -/
theorem c2_frame_layout_witness :
    frame 0x28 = [0xa1, 0x6a, 0x1f, 0x00, 0x10, 0x28, 0x3f, 0x00, 0x00, 0x00, 0x00] ∧
    (frame 0x28).length = 11 :=
  c2_frame_layout 0x28 (by decide)

/-- Claim C5 (evaluation at the failing input): the initial directory scan
never tests `D_OUT_8`, because the loop condition `i != LAST_PIN` stops at
`i = 8`.  If only `D_OUT_8` exists the seeded mask is `0` (bit 7 clear,
contradicting the claim's value `128`); if `D_OUT_2` and `D_OUT_4` exist
the mask is `10` (bits 1 and 3, as claimed); even with all eight files
present the mask is `127`, never `255`. -/
theorem c5_scan_bug_eval :
    initialScan (fun n => n == 8) = 0 ∧
    initialScan (fun n => n == 2 || n == 4) = 10 ∧
    initialScan (fun _ => true) = 127 := by
  decide

/-- Each relay bit contributes exactly three sub-commands. -/
theorem relaySteps_length (a m : Nat) : (relaySteps a m).length = 3 := by
  unfold relaySteps
  split <;> rfl

/-- The sub-command program always has 27 entries. -/
theorem subCommands_length (a : Nat) : (subCommands a).length = 27 := by
  simp [subCommands, relaySteps_length]

set_option maxRecDepth 100000 in
/-- Claim C1: the sub-command program of one apply call has length 27,
starts with `FRAME_START` (`0x00`), ends with `FRAME_END_A, FRAME_END_B`
(`0x00, 0x01`), and the 3-sub-command group at position `7 - b` (groups
are emitted for bit 7 down to bit 0) is `[0x20, 0x28, 0x20]` when bit `b`
of the mask is set and `[0x00, 0x08, 0x00]` otherwise. -/
theorem c1_sequence_program (m b : Nat) (hm : m < 256) (hb : b < 8) :
    (subCommands m).length = 27 ∧
    (subCommands m).head? = some 0x00 ∧
    (subCommands m).drop 25 = [0x00, 0x01] ∧
    ((subCommands m).drop (1 + 3 * (7 - b))).take 3 =
      (if m.testBit b then [0x20, 0x28, 0x20] else [0x00, 0x08, 0x00]) := by
  have H : ∀ m, m < 256 → ∀ b, b < 8 →
      (subCommands m).length = 27 ∧
      (subCommands m).head? = some 0x00 ∧
      (subCommands m).drop 25 = [0x00, 0x01] ∧
      ((subCommands m).drop (1 + 3 * (7 - b))).take 3 =
        (if m.testBit b then [0x20, 0x28, 0x20] else [0x00, 0x08, 0x00]) := by decide
  exact H m hm b hb

/-- Witness for `c1_sequence_program` at mask `0xa5` and bit 2 (set). -/
theorem c1_sequence_program_witness :
    (subCommands 0xa5).length = 27 ∧
    (subCommands 0xa5).head? = some 0x00 ∧
    (subCommands 0xa5).drop 25 = [0x00, 0x01] ∧
    ((subCommands 0xa5).drop (1 + 3 * (7 - 2))).take 3 = [0x20, 0x28, 0x20] := by
  have h := c1_sequence_program 0xa5 2 (by decide) (by decide)
  refine ⟨h.1, h.2.1, h.2.2.1, ?_⟩
  rw [h.2.2.2]
  decide

/-- If the oracle accepts every write of the program, `sendFrames`
transmits every sub-command, each encoded by `frame`. -/
theorem sendFrames_all_ok (tok : Nat → Bool) (cs : List Nat) (k : Nat)
    (h : ∀ i, i < cs.length → tok (k + i) = true) :
    sendFrames tok k cs = (true, cs.map frame) := by
  induction cs generalizing k with
  | nil => rfl
  | cons c cs ih =>
    have h0 : tok k = true := by simpa using h 0 (by simp)
    have hrec : sendFrames tok (k + 1) cs = (true, cs.map frame) := by
      apply ih
      intro i hi
      have hx := h (i + 1) (by simp; omega)
      rw [show k + (i + 1) = k + 1 + i by omega] at hx
      exact hx
    simp [sendFrames, h0, hrec]

/-- If the first rejected write is the `j`-th one, `sendFrames` stops
right after it: exactly the first `j + 1` sub-commands are attempted. -/
theorem sendFrames_first_fail (tok : Nat → Bool) (cs : List Nat) (k j : Nat)
    (hj : j < cs.length) (hfail : tok (k + j) = false)
    (hok : ∀ i, i < j → tok (k + i) = true) :
    sendFrames tok k cs = (false, (cs.take (j + 1)).map frame) := by
  induction cs generalizing k j with
  | nil => simp at hj
  | cons c cs ih =>
    cases j with
    | zero =>
      have h0 : tok k = false := by simpa using hfail
      simp [sendFrames, h0]
    | succ j =>
      have h0 : tok k = true := by simpa using hok 0 (Nat.succ_pos j)
      have hrec : sendFrames tok (k + 1) cs = (false, (cs.take (j + 1)).map frame) := by
        apply ih
        · simpa using hj
        · rw [show k + 1 + j = k + (j + 1) by omega]
          exact hfail
        · intro i hi
          rw [show k + 1 + i = k + (i + 1) by omega]
          exact hok (i + 1) (by omega)
      simp [sendFrames, h0, hrec]

/-- If some write among the program is rejected, the transmission as a
whole reports failure. -/
theorem sendFrames_fst_false (tok : Nat → Bool) (cs : List Nat) (k : Nat)
    (h : ∃ j, j < cs.length ∧ tok (k + j) = false) :
    (sendFrames tok k cs).1 = false := by
  induction cs generalizing k with
  | nil =>
    obtain ⟨j, hj, _⟩ := h
    simp at hj
  | cons c cs ih =>
    by_cases h0 : tok k = true
    · have hnext : ∃ j, j < cs.length ∧ tok (k + 1 + j) = false := by
        obtain ⟨j, hj, hf⟩ := h
        cases j with
        | zero =>
          rw [Nat.add_zero] at hf
          simp [h0] at hf
        | succ j =>
          refine ⟨j, by simpa using hj, ?_⟩
          rw [show k + 1 + j = k + (j + 1) by omega]
          exact hf
      simp [sendFrames, h0, ih _ hnext]
    · have h0f : tok k = false := by simpa using h0
      simp [sendFrames, h0f]

/-- Claim C3: with a live device handle, `USB_write_IO` either (a) sees
all 27 writes succeed, records the truncated mask in `outputbits`, clears
`output_pending` and returns success with the whole program transmitted,
or (b) fails fast at the first write `j` whose byte count is not 11: only
the first `j + 1` sub-commands are attempted, the session is closed and
nulled, the handle is marked pending, and the call returns the error. -/
theorem c3_apply_fail_fast (h : IosHandle) (tok : Nat → Bool)
    (hd : h.device_handle = some ()) :
    ((∀ k, k < 27 → tok k = true) →
      USB_write_io h tok =
        .ok { h with output_pending := false, outputbits := h.active_relays % 256 }
          ((subCommands (h.active_relays % 256)).map frame)) ∧
    (∀ j, j < 27 → tok j = false → (∀ k, k < j → tok k = true) →
      USB_write_io h tok =
        .err { h with device_handle := none, output_pending := true }
          (((subCommands (h.active_relays % 256)).take (j + 1)).map frame)) := by
  constructor
  · intro hall
    have hsend := sendFrames_all_ok tok (subCommands (h.active_relays % 256)) 0
      (fun i hi => by
        rw [Nat.zero_add]
        exact hall i (by rw [subCommands_length] at hi; exact hi))
    simp [USB_write_io, hd, hsend]
  · intro j hj hfail hok
    have hsend := sendFrames_first_fail tok (subCommands (h.active_relays % 256)) 0 j
      (by rw [subCommands_length]; exact hj)
      (by rw [Nat.zero_add]; exact hfail)
      (fun i hi => by rw [Nat.zero_add]; exact hok i hi)
    simp [USB_write_io, hd, hsend]

/-- Witness for `c3_apply_fail_fast`: mask 5, the transport accepts writes
0, 1, 2 and rejects write 3; the call errs with the handle nulled after
attempting exactly 4 frames. -/
theorem c3_apply_fail_fast_witness :
    USB_write_io ⟨5, 0, some (), true⟩ (fun k => decide (k < 3)) =
      .err ⟨5, 0, none, true⟩ (((subCommands 5).take 4).map frame) := by
  have h := (c3_apply_fail_fast ⟨5, 0, some (), true⟩ (fun k => decide (k < 3)) rfl).2
    3 (by decide) (by decide) (fun k hk => decide_eq_true hk)
  simpa using h

/-- Claim C9: only the low 8 bits of the `active_relays` accumulator reach
the device — `USB_write_IO` truncates with a `uint8_t` cast, so two
handles whose accumulators agree modulo 256 emit the same program. -/
theorem c9_low_bits (h1 h2 : IosHandle) (tok : Nat → Bool)
    (hd1 : h1.device_handle = some ()) (hd2 : h2.device_handle = some ())
    (hagree : h1.active_relays % 256 = h2.active_relays % 256) :
    framesOf (USB_write_io h1 tok) = framesOf (USB_write_io h2 tok) := by
  unfold USB_write_io
  rw [hd1, hd2, hagree]
  cases hr : (sendFrames tok 0 (subCommands (h2.active_relays % 256))).1 <;>
    simp [framesOf, hr]

/-- Witness for `c9_low_bits`: accumulators `0x1a5` and `0xa5` agree on
their low 8 bits and emit the same program. -/
theorem c9_low_bits_witness :
    framesOf (USB_write_io ⟨0x1a5, 0, some (), false⟩ (fun _ => true)) =
      framesOf (USB_write_io ⟨0xa5, 0, some (), false⟩ (fun _ => true)) :=
  c9_low_bits ⟨0x1a5, 0, some (), false⟩ ⟨0xa5, 0, some (), false⟩ (fun _ => true)
    rfl rfl (by decide)

/-- Counterexample to claim C4: after the daemon loop suffers a transport
failure (here: the very first write of a batch is rejected), the session
is discarded but the loop does not reconnect; the next iteration calls
`USB_write_IO` with a NULL handle and the `assert(dev)` aborts the daemon
— it does exit on its own after a transient device error. -/
theorem c4_counterexample :
    daemonStep ⟨1, 0, some (), false⟩ [] (fun _ => false) =
      .next ⟨1, 0, none, true⟩ [frame 0x00] ∧
    daemonStep ⟨1, 0, none, true⟩ [] (fun _ => true) = .assertCrash := by
  refine ⟨rfl, rfl⟩

/-- Claim C4 (amended): whenever an apply fails with a transport failure
in the daemon event loop, the loop does not transition back to a
connecting state — it merely nulls the handle and keeps running, and the
next iteration's `USB_write_IO` call fails its device-handle assertion and
aborts the process. -/
theorem c4_amended_crash (h : IosHandle) (tok tok2 : Nat → Bool)
    (batch1 batch2 : List WEvent) (a1 a2 : Nat)
    (hd : h.device_handle = some ())
    (hf1 : foldBatch h.active_relays batch1 = some a1)
    (hfail : ∃ j, j < 27 ∧ tok j = false) :
    ∃ h1 fs, daemonStep h batch1 tok = .next h1 fs ∧ h1.device_handle = none ∧
      (foldBatch h1.active_relays batch2 = some a2 →
        daemonStep h1 batch2 tok2 = .assertCrash) := by
  have hff : (sendFrames tok 0 (subCommands (a1 % 256))).1 = false := by
    apply sendFrames_fst_false
    obtain ⟨j, hj, hf⟩ := hfail
    refine ⟨j, ?_, ?_⟩
    · rw [subCommands_length]
      exact hj
    · rw [Nat.zero_add]
      exact hf
  refine ⟨{ h with active_relays := a1, device_handle := none, output_pending := true },
    (sendFrames tok 0 (subCommands (a1 % 256))).2, ?_, rfl, ?_⟩
  · unfold daemonStep
    rw [hf1]
    simp [USB_write_io, hd, hff]
  · intro hf2
    unfold daemonStep
    rw [hf2]
    simp [USB_write_io]

/-- Witness for `c4_amended_crash` at a concrete connected handle, an
all-rejecting transport for the first batch, and empty batches. -/
theorem c4_amended_crash_witness :
    ∃ h1 fs, daemonStep ⟨1, 0, some (), false⟩ [] (fun _ => false) = .next h1 fs ∧
      h1.device_handle = none ∧
      (foldBatch h1.active_relays [] = some 1 →
        daemonStep h1 [] (fun _ => true) = .assertCrash) :=
  c4_amended_crash ⟨1, 0, some (), false⟩ (fun _ => false) (fun _ => true) [] [] 1 1
    rfl rfl ⟨0, by decide, rfl⟩

/-- Counterexample to claim C6: a create event for `D_OUT_9` — relay
number 9, outside `1..8` — is not ignored: the 32-bit accumulator changes
from 0 to 256 (bit 8 is set), because the event fold has no range check. -/
theorem c6_counterexample :
    scanDOut ['D', '_', 'O', 'U', 'T', '_', '9'] = some 9 ∧
    foldEvent 0 ⟨.create, false, ['D', '_', 'O', 'U', 'T', '_', '9']⟩ = some 256 ∧
    (256 : Nat) ≠ 0 := by
  refine ⟨rfl, rfl, by decide⟩

/-- `(a ||| b) % 2 ^ k` distributes over the OR. -/
theorem lor_mod_two_pow (a b k : Nat) :
    (a ||| b) % 2 ^ k = (a % 2 ^ k) ||| (b % 2 ^ k) := by
  apply Nat.eq_of_testBit_eq
  intro i
  by_cases hik : i < k <;>
    simp [Nat.testBit_mod_two_pow, Nat.testBit_lor, hik, Bool.and_or_distrib_left]

/-- `(a &&& b) % 2 ^ k` distributes over the AND. -/
theorem land_mod_two_pow (a b k : Nat) :
    (a &&& b) % 2 ^ k = (a % 2 ^ k) &&& (b % 2 ^ k) := by
  apply Nat.eq_of_testBit_eq
  intro i
  by_cases hik : i < k <;>
    simp [Nat.testBit_mod_two_pow, Nat.testBit_land, hik]

/-- Setting a bit at position 8 or above does not change the low byte. -/
theorem mask_or_mod (acc m : Nat) (hm : 8 ≤ m) :
    (acc ||| 2 ^ m) % 256 = acc % 256 := by
  rw [show (256 : Nat) = 2 ^ 8 by norm_num, lor_mod_two_pow]
  have hz : 2 ^ m % 2 ^ 8 = 0 := by
    have h1 : (2 : Nat) ^ m = 2 ^ 8 * 2 ^ (m - 8) := by
      rw [← pow_add]
      congr 1
      omega
    rw [h1]
    exact Nat.mul_mod_right _ _
  rw [hz]
  simp

/-- Clearing a bit at position 8..30 via the 32-bit complement mask does
not change the low byte. -/
theorem mask_and_mod (acc m : Nat) (hm8 : 8 ≤ m) (hm30 : m ≤ 30) :
    (acc &&& (2 ^ 32 - 1 - 2 ^ m)) % 256 = acc % 256 := by
  have hmod : (2 ^ 32 - 1 - 2 ^ m) % 2 ^ 8 = 255 := by
    have h1 : (2 : Nat) ^ m = 256 * 2 ^ (m - 8) := by
      rw [show (256 : Nat) = 2 ^ 8 by norm_num, ← pow_add]
      congr 1
      omega
    have h3 : (2 : Nat) ^ (m - 8) ≤ 4194304 := by
      calc (2 : Nat) ^ (m - 8) ≤ 2 ^ 22 := Nat.pow_le_pow_right (by norm_num) (by omega)
        _ = 4194304 := by norm_num
    have h4 : (2 : Nat) ^ 32 = 4294967296 := by norm_num
    have h5 : (2 : Nat) ^ 8 = 256 := by norm_num
    rw [h1, h4, h5]
    omega
  rw [show (256 : Nat) = 2 ^ 8 by norm_num, land_mod_two_pow, hmod,
    show (255 : Nat) = 2 ^ 8 - 1 by norm_num, Nat.and_pow_two_sub_one_eq_mod]
  exact Nat.mod_mod_of_dvd acc dvd_rfl

/-- Claim C6 (amended): an event whose name parses as `D_OUT_<n>` with `n`
in `9..31` is not ignored — create sets bit `n - 1` of the 32-bit
accumulator and delete clears it — but only bits at position 8 and above
are touched, so the low 8 bits (and hence the byte sent to the board) are
unchanged.  (For `n ≤ 0` or `n ≥ 32` the C shift `1 << (n - 1)` is
undefined behavior.) -/
theorem c6_amended_out_of_range (acc : Nat) (name : List Char) (n : Int)
    (hscan : scanDOut name = some n) (h9 : 9 ≤ n) (h31 : n ≤ 31) :
    foldEvent acc ⟨.create, false, name⟩ = some (acc ||| 2 ^ (n.toNat - 1)) ∧
    foldEvent acc ⟨.delete, false, name⟩ =
      some (acc &&& (2 ^ 32 - 1 - 2 ^ (n.toNat - 1))) ∧
    (acc ||| 2 ^ (n.toNat - 1)) % 256 = acc % 256 ∧
    (acc &&& (2 ^ 32 - 1 - 2 ^ (n.toNat - 1))) % 256 = acc % 256 := by
  have hname : name ≠ [] := by
    intro he
    rw [he] at hscan
    simp [scanDOut, matchLit, dOutLit] at hscan
    omega
  have hrange : 1 ≤ n ∧ n ≤ 31 := ⟨by omega, h31⟩
  have hm8 : 8 ≤ n.toNat - 1 := by omega
  have hm30 : n.toNat - 1 ≤ 30 := by omega
  refine ⟨?_, ?_, mask_or_mod acc _ hm8, mask_and_mod acc _ hm8 hm30⟩
  · simp [foldEvent, hname, hscan, hrange]
  · simp [foldEvent, hname, hscan, hrange]

/-- Witness for `c6_amended_out_of_range`: creating then deleting
`D_OUT_9` over accumulator 3 sets and clears bit 8, leaving the low byte
alone. -/
theorem c6_amended_out_of_range_witness :
    foldEvent 3 ⟨.create, false, ['D', '_', 'O', 'U', 'T', '_', '9']⟩ = some 259 ∧
    foldEvent 3 ⟨.delete, false, ['D', '_', 'O', 'U', 'T', '_', '9']⟩ = some 3 ∧
    (259 : Nat) % 256 = 3 % 256 := by
  have h := c6_amended_out_of_range 3 ['D', '_', 'O', 'U', 'T', '_', '9'] 9
    (by decide) (by decide) (by decide)
  refine ⟨?_, ?_, by decide⟩
  · rw [h.1]
    decide
  · rw [h.2.1]
    decide

/-- Counterexample to claim C7: one-shot mode with relays `[1, 5, 7]`
applies the mask `0b01010001 = 81` (bits 0, 4, 6), not the claimed
`0b01000101 = 69`. -/
theorem c7_counterexample :
    (run_once ⟨0, 0, none, false⟩ [['1'], ['5'], ['7']] true (fun _ => true)).h.outputbits =
      0b01010001 ∧
    (0b01010001 : Nat) ≠ 0b01000101 := by
  refine ⟨rfl, by decide⟩

/-- Claim C7 (amended): one-shot mode with relays `[1, 5, 7]` builds the
mask `0b01010001` (bits 0, 4 and 6 set), calls `USB_write_IO` exactly once
with that mask, and exits with code 0 when the device opens (and all
writes succeed) and with code 3 — without any write — when the device is
absent at open time. -/
theorem c7_amended_mask :
    (run_once ⟨0, 0, none, false⟩ [['1'], ['5'], ['7']] true (fun _ => true)).rc = 0 ∧
    (run_once ⟨0, 0, none, false⟩ [['1'], ['5'], ['7']] true (fun _ => true)).applyCalls = 1 ∧
    (run_once ⟨0, 0, none, false⟩ [['1'], ['5'], ['7']] true (fun _ => true)).h.outputbits =
      0b01010001 ∧
    (run_once ⟨0, 0, none, false⟩ [['1'], ['5'], ['7']] false (fun _ => true)).rc = 3 ∧
    (run_once ⟨0, 0, none, false⟩ [['1'], ['5'], ['7']] false (fun _ => true)).applyCalls = 0 := by
  refine ⟨rfl, rfl, rfl, rfl, rfl⟩

/-- Claim C8: if any one-shot argument parses outside `1..8`, `run_once`
returns exit code 2 and no device interaction happens: the transport is
never opened, no apply is made, no frame is written. -/
theorem c8_invalid_arg (h : IosHandle) (args : List (List Char)) (openOk : Bool)
    (tok : Nat → Bool)
    (hbad : ∃ a ∈ args, atoi a < FIRST_PIN ∨ atoi a > LAST_PIN) :
    (run_once h args openOk tok).rc = 2 ∧
    (run_once h args openOk tok).opened = false ∧
    (run_once h args openOk tok).applyCalls = 0 ∧
    (run_once h args openOk tok).frames = [] := by
  induction args generalizing h with
  | nil => simp at hbad
  | cons a rest ih =>
    by_cases hv : atoi a < FIRST_PIN ∨ atoi a > LAST_PIN
    · simp [run_once, hv]
    · have hbad2 : ∃ b ∈ rest, atoi b < FIRST_PIN ∨ atoi b > LAST_PIN := by
        obtain ⟨b, hb, hbv⟩ := hbad
        rcases List.mem_cons.mp hb with he | hb2
        · rw [he] at hbv
          exact absurd hbv hv
        · exact ⟨b, hb2, hbv⟩
      have hrec := ih { h with active_relays := h.active_relays ||| 2 ^ ((atoi a).toNat - 1) }
        hbad2
      simpa [run_once, hv] using hrec

/-- Witness for `c8_invalid_arg`: the single argument `9`. -/
theorem c8_invalid_arg_witness :
    (run_once ⟨0, 0, none, false⟩ [['9']] true (fun _ => true)).rc = 2 ∧
    (run_once ⟨0, 0, none, false⟩ [['9']] true (fun _ => true)).opened = false ∧
    (run_once ⟨0, 0, none, false⟩ [['9']] true (fun _ => true)).applyCalls = 0 ∧
    (run_once ⟨0, 0, none, false⟩ [['9']] true (fun _ => true)).frames = [] :=
  c8_invalid_arg ⟨0, 0, none, false⟩ [['9']] true (fun _ => true)
    ⟨['9'], by simp, by decide⟩

/-- Counterexample to claim C10: in the name `D_OUT_+3` the prefix
`D_OUT_` is not immediately followed by a digit, yet the event is not
ignored — scanf's `%d` accepts the sign, parses 3, and bit 2 is set. -/
theorem c10_counterexample :
    scanDOut ['D', '_', 'O', 'U', 'T', '_', '+', '3'] = some 3 ∧
    foldEvent 0 ⟨.create, false, ['D', '_', 'O', 'U', 'T', '_', '+', '3']⟩ = some 4 ∧
    (4 : Nat) ≠ 0 := by
  refine ⟨rfl, rfl, by decide⟩

/-- Matching the format literal against an input that starts with exactly
that literal succeeds and leaves the remainder. -/
theorem matchLit_self_append (lit s : List Char) : matchLit lit (lit ++ s) = .rest s := by
  induction lit with
  | nil => rfl
  | cons c cs ih => simp [matchLit, ih]

/-- The `%d` digit accumulator stops at the first non-digit: appending a
suffix that does not start with a digit never changes the parsed value. -/
theorem digitsVal_append (acc : Nat) (ds suffix : List Char)
    (hds : ∀ c ∈ ds, isDigit c = true)
    (hsuf : ∀ c, suffix.head? = some c → isDigit c = false) :
    digitsVal acc (ds ++ suffix) = digitsVal acc ds := by
  induction ds generalizing acc with
  | nil =>
    cases suffix with
    | nil => rfl
    | cons c cs =>
      have hc : isDigit c = false := hsuf c rfl
      simp [digitsVal, hc]
  | cons d ds ih =>
    have hd : isDigit d = true := hds d (by simp)
    simp only [List.cons_append, digitsVal, hd, if_true]
    exact ih _ (fun c hc => hds c (List.mem_cons_of_mem _ hc))

/-- Parsing a name of shape `D_OUT_` + digit run + arbitrary non-digit-led
suffix: `sscanf` succeeds with the value of the digit run, whatever the
trailing characters are. -/
theorem scanDOut_digit_run (ds suffix : List Char) (hne : ds ≠ [])
    (hds : ∀ c ∈ ds, isDigit c = true)
    (hsuf : ∀ c, suffix.head? = some c → isDigit c = false) :
    scanDOut (dOutLit ++ (ds ++ suffix)) = some (Int.ofNat (digitsVal 0 ds)) := by
  obtain ⟨d, ds2, rfl⟩ : ∃ d ds2, ds = d :: ds2 := by
    cases ds with
    | nil => exact absurd rfl hne
    | cons d ds2 => exact ⟨d, ds2, rfl⟩
  have hd : isDigit d = true := hds d (by simp)
  have hdnat : 48 ≤ d.toNat ∧ d.toNat ≤ 57 := by simpa [isDigit] using hd
  have hnsp : isSpace d = false := by
    simp only [isSpace, decide_eq_false_iff_not]
    omega
  have hnminus : ¬(d = '-') := by
    intro he
    rw [he] at hd
    exact absurd hd (by decide)
  have hnplus : ¬(d = '+') := by
    intro he
    rw [he] at hd
    exact absurd hd (by decide)
  have hdrop : dropSpaces (d :: (ds2 ++ suffix)) = d :: (ds2 ++ suffix) := by
    simp [dropSpaces, hnsp]
  have hval : digitsVal 0 (d :: (ds2 ++ suffix)) = digitsVal 0 (d :: ds2) := by
    rw [show d :: (ds2 ++ suffix) = (d :: ds2) ++ suffix from rfl]
    exact digitsVal_append 0 (d :: ds2) suffix hds hsuf
  simp only [scanDOut, List.cons_append, matchLit_self_append, hdrop, hnminus, hnplus,
    if_false, hd, if_true, hval]

/-- An event fold on a name `sscanf`-parsed to `pin = n` with `n` in
`1..31` sets (create) or clears (delete) bit `n - 1` of the accumulator. -/
theorem foldEvent_parsed (acc : Nat) (name : List Char) (n : Int)
    (hscan : scanDOut name = some n) (h1 : 1 ≤ n) (h31 : n ≤ 31) :
    foldEvent acc ⟨.create, false, name⟩ = some (acc ||| 2 ^ (n.toNat - 1)) ∧
    foldEvent acc ⟨.delete, false, name⟩ =
      some (acc &&& (2 ^ 32 - 1 - 2 ^ (n.toNat - 1))) := by
  have hname : name ≠ [] := by
    intro he
    rw [he] at hscan
    simp [scanDOut, matchLit, dOutLit] at hscan
    omega
  have hrange : 1 ≤ n ∧ n ≤ 31 := ⟨h1, h31⟩
  constructor <;> simp [foldEvent, hname, hscan, hrange]

/-- Claim C10 (amended): filename matching in the daemon's event fold is
prefix-based, not exact.  (1) Every create or delete event whose name
`sscanf`-parses as `D_OUT_<n>` with `n` in `1..31` sets resp. clears bit
`n - 1` of the accumulator — for `n` in `1..8` that is relay `n`'s
desired state.  (2) The parse ignores arbitrary trailing characters: for
every nonempty digit run and every suffix not starting with a digit,
`D_OUT_<digits><suffix>` parses to the same value as `D_OUT_<digits>`
(so e.g. `D_OUT_3.tmp` sets or clears relay 3), and in range `1..31` the
fold updates that bit.  (3) A name in which the character right after
`D_OUT_` is neither a digit, nor white space, nor a sign leaves the mask
unchanged, for create and delete events alike. -/
theorem c10_amended_scan (acc : Nat) :
    (∀ name n, scanDOut name = some n → 1 ≤ n → n ≤ 31 →
      foldEvent acc ⟨.create, false, name⟩ = some (acc ||| 2 ^ (n.toNat - 1)) ∧
      foldEvent acc ⟨.delete, false, name⟩ =
        some (acc &&& (2 ^ 32 - 1 - 2 ^ (n.toNat - 1)))) ∧
    (∀ ds suffix, ds ≠ [] → (∀ c ∈ ds, isDigit c = true) →
      (∀ c, suffix.head? = some c → isDigit c = false) →
      scanDOut (dOutLit ++ (ds ++ suffix)) = scanDOut (dOutLit ++ ds) ∧
      (1 ≤ digitsVal 0 ds → digitsVal 0 ds ≤ 31 →
        foldEvent acc ⟨.create, false, dOutLit ++ (ds ++ suffix)⟩ =
          some (acc ||| 2 ^ (digitsVal 0 ds - 1)) ∧
        foldEvent acc ⟨.delete, false, dOutLit ++ (ds ++ suffix)⟩ =
          some (acc &&& (2 ^ 32 - 1 - 2 ^ (digitsVal 0 ds - 1))))) ∧
    (∀ name c rest, matchLit dOutLit name = .rest (c :: rest) →
      isDigit c = false → isSpace c = false → c ≠ '+' → c ≠ '-' →
      foldEvent acc ⟨.create, false, name⟩ = some acc ∧
      foldEvent acc ⟨.delete, false, name⟩ = some acc) := by
  refine ⟨fun name n hscan h1 h31 => foldEvent_parsed acc name n hscan h1 h31, ?_, ?_⟩
  · intro ds suffix hne hds hsuf
    have hparse1 := scanDOut_digit_run ds suffix hne hds hsuf
    have hparse2 := scanDOut_digit_run ds [] hne hds (fun c hc => by simp at hc)
    rw [List.append_nil] at hparse2
    refine ⟨by rw [hparse1, hparse2], ?_⟩
    intro hlo hhi
    have h := foldEvent_parsed acc (dOutLit ++ (ds ++ suffix)) (Int.ofNat (digitsVal 0 ds))
      hparse1 (Int.ofNat_le.mpr hlo) (Int.ofNat_le.mpr hhi)
    simpa using h
  · intro name c rest hmatch hdig hsp hplus hminus
    have hname : name ≠ [] := by
      intro he
      rw [he] at hmatch
      simp [matchLit, dOutLit] at hmatch
    have hdrops : dropSpaces (c :: rest) = c :: rest := by
      simp [dropSpaces, hsp]
    have hscan : scanDOut name = none := by
      unfold scanDOut
      rw [hmatch]
      simp only [hdrops]
      simp [hplus, hminus, hdig]
    constructor <;> simp [foldEvent, hname, hscan]

/-- Witness for `c10_amended_scan`: `D_OUT_3.tmp` — digit run `3`,
trailing suffix `.tmp` — sets bit 2 over an empty mask, while `D_OUT_x`
leaves the mask unchanged for create and delete alike. -/
theorem c10_amended_scan_witness :
    foldEvent 0 ⟨.create, false, ['D', '_', 'O', 'U', 'T', '_', '3', '.', 't', 'm', 'p']⟩ =
      some 4 ∧
    foldEvent 0 ⟨.delete, false, ['D', '_', 'O', 'U', 'T', '_', '3', '.', 't', 'm', 'p']⟩ =
      some 0 ∧
    foldEvent 0 ⟨.create, false, ['D', '_', 'O', 'U', 'T', '_', 'x']⟩ = some 0 ∧
    foldEvent 0 ⟨.delete, false, ['D', '_', 'O', 'U', 'T', '_', 'x']⟩ = some 0 := by
  have h := c10_amended_scan 0
  have h2 := (h.2.1 ['3'] ['.', 't', 'm', 'p'] (by decide) (by decide)
      (fun c hc => by
        have hc2 : c = '.' := by simpa [eq_comm] using hc
        rw [hc2]
        decide)).2
    (by decide) (by decide)
  have hl : dOutLit ++ (['3'] ++ ['.', 't', 'm', 'p']) =
      ['D', '_', 'O', 'U', 'T', '_', '3', '.', 't', 'm', 'p'] := rfl
  rw [hl] at h2
  have h3 := h.2.2 ['D', '_', 'O', 'U', 'T', '_', 'x'] 'x' [] rfl (by decide) (by decide)
    (by decide) (by decide)
  refine ⟨?_, ?_, h3.1, h3.2⟩
  · rw [h2.1]
    decide
  · rw [h2.2]
    decide

end RelayBoard
